import Mathlib

/-!
Shallow embedding of the LuxorLabs hashrateindex-api-python-client repository
(`src/hashrateindex.py`, `src/resolvers.py`).

The library builds GraphQL request bodies (a query string plus a variables
mapping), sends them over HTTP, interprets the HTTP status, and post-processes
or resolves the returned JSON envelope.  The embedding below renders:

* the request bodies each `API.get_*` method would send (query text taken
  verbatim from the source, with Python `str.format` brace doubling applied);
* the status handling of `API.request` (lines 107-114);
* the dynamic dispatch `API.exec` (lines 283-300), including its
  comma-splitting and digit-coercion of the positional-argument string;
* the `price`-deleting post-processing of `get_network_difficulty`
  (lines 219-221), as a state-passing loop so that partial in-place mutation
  at the moment an exception is raised is observable;
* the `RESOLVERS.resolve_*` extraction paths of `src/resolvers.py`.

Python string primitives used by the source (`str.lower`, `str.isdigit`,
`int(...)` on a digit string, `str.split(',')`) are embedded as structurally
recursive functions over `List Char` (ASCII-faithful), so that every
definition evaluates by kernel reduction.
-/

namespace HRI

/-- A JSON scalar value as it can appear in the `variables` mapping of a
request body.  The Python code only ever puts strings and ints there
(strings directly, ints via the `first`/`last` defaults and via `exec`'s
digit coercion). -/
inductive JVal where
  | str (s : String)
  | num (n : Nat)
  deriving DecidableEq, Repr

/-- The outgoing request body: `json.dumps({'query': query, 'variables': params})`
(hashrateindex.py lines 102-105).  `vars := none` models Python `None`
(the default of `request`'s `params` argument). -/
structure RequestBody where
  query : String
  vars : Option (List (String × JVal))
  deriving DecidableEq, Repr

/-- The error kinds raised by the source, named after the spec's error kinds
and the Python exception classes involved. -/
inductive Err where
  /-- `Exception('Invalid currency input')`, lines 154 and 263. -/
  | invalidCurrency
  /-- the `Exception` raised by `request` on a non-200 status, with its message. -/
  | remote (msg : String)
  /-- Python `KeyError` from `d[k]` / `del d[k]` on a dict lacking `k`. -/
  | keyError (k : String)
  /-- Python `TypeError` (wrong arity, wrong operand type, non-iterable...). -/
  | typeError
  /-- Python `AttributeError` (e.g. `.lower()` on an int). -/
  | attributeError
  /-- `Exception(f'failed to execute {method}')`, line 300. -/
  | execFailed (m : String)
  deriving DecidableEq, Repr

instance {ε α : Type} [DecidableEq ε] [DecidableEq α] : DecidableEq (Except ε α) :=
  fun x y =>
    match x, y with
    | .ok a, .ok b =>
      if h : a = b then isTrue (by rw [h]) else isFalse (by simp [h])
    | .error a, .error b =>
      if h : a = b then isTrue (by rw [h]) else isFalse (by simp [h])
    | .ok _, .error _ => isFalse (by simp)
    | .error _, .ok _ => isFalse (by simp)

/-! ### Python string primitives -/

/-- Python `str.lower()` (ASCII). -/
def pyLower (s : String) : String :=
  String.mk (s.toList.map Char.toLower)

/-- Python `str.isdigit()` (ASCII): non-empty and every character a digit. -/
def pyIsDigit (s : String) : Bool :=
  !s.toList.isEmpty && s.toList.all Char.isDigit

/-- Python `int(s)` for a digit string: decimal value. -/
def pyToInt (s : String) : Nat :=
  s.toList.foldl (fun n c => 10 * n + (c.toNat - 48)) 0

/-- Helper for `pySplitComma`: accumulates the current chunk (reversed). -/
def pySplitCommaAux : List Char → List Char → List String
  | [], acc => [String.mk acc.reverse]
  | c :: cs, acc =>
    if c = ',' then String.mk acc.reverse :: pySplitCommaAux cs []
    else pySplitCommaAux cs (c :: acc)

/-- Python `s.split(',')`: e.g. `"a,b" ↦ ["a","b"]`, `"" ↦ [""]`, `"," ↦ ["",""]`. -/
def pySplitComma (s : String) : List String :=
  pySplitCommaAux s.toList []

/-! ### Query texts, verbatim from the source

Literal braces of the GraphQL syntax are written `\x7b` / `\x7d`.
For `get_hashprice` the Python source formats a field name into a template
(`{{`/`}}` doubling, line 157-164); the prefix/suffix below are the template
text after that formatting, around the `{field}` hole. -/

def bitcoinOverviewQuery : String :=
  "query bitcoinOverviews($last: Int!) \x7bbitcoinOverviews(last: $last) \x7b\n            nodes\x7b\n                timestamp\n                hashpriceUsd\n                networkHashrate7D\n                networkDiff\n                estDiffAdj\n                coinbaseRewards24H\n                feesBlocks24H\n                marketcap\n                nextHalvingCount\n                nextHalvingDate\n                txRateAvg7D\n            \x7d\n        \x7d\x7d"

def hashpriceQueryPre : String :=
  "query get_hashprice($inputInterval: ChartsInterval!, $first: Int) \x7b\n            getHashprice(inputInterval: $inputInterval, first: $first) \x7b\n                nodes \x7b\n                    timestamp\n                    "

def hashpriceQuerySuf : String :=
  "\n                \x7d\n            \x7d\n        \x7d"

/-- The query text of `get_hashprice` with `field` substituted
(`""" ... {field} ... """.format(field=field)`, line 157-164). -/
def hashpriceQuery (field : String) : String :=
  hashpriceQueryPre ++ field ++ hashpriceQuerySuf

def networkHashrateQuery : String :=
  "query get_network_hashrate($inputInterval: ChartsInterval!, $first: Int) \x7b\n            getNetworkHashrate(inputInterval: $inputInterval, first: $first) \x7b\n                nodes \x7b\n                    timestamp\n                    networkHashrate\n                \x7d\n            \x7d\n        \x7d"

def networkDifficultyQuery : String :=
  "query get_price_difficulty($inputInterval: ChartsInterval, $inputSlug: String) \x7b\n            getChartBySlug(inputInterval: $inputInterval, inputSlug: $inputSlug) \x7b\n                data\n            \x7d\n        \x7d"

def ohlcPricesQuery : String :=
  "query get_ohlc_prices($inputInterval: ChartsInterval, $inputSlug: String) \x7b\n            getChartBySlug(inputInterval: $inputInterval, inputSlug: $inputSlug) \x7b\n                data\n            \x7d\n        \x7d"

def asicPriceIndexQuery : String :=
  "query get_asic_price_index($inputInterval: ChartsInterval, $inputSlug: String) \x7b\n            getChartBySlug(inputInterval: $inputInterval, inputSlug: $inputSlug) \x7b\n                data\n            \x7d\n        \x7d"

/-! ### Request builders, one per `API.get_*` method

Each builder returns the request body the method hands to `API.request`, or
the error it raises before reaching `request`.  The `JVal`-argument versions
(`...Body`) exist because `API.exec` may pass coerced `int` arguments; the
`String`-argument versions are the direct Python call with string arguments. -/

/-- `API.get_bitcoin_overview` (lines 117-140): fixed query, `last = 1`. -/
def bitcoinOverviewBody : RequestBody :=
  { query := bitcoinOverviewQuery, vars := some [("last", .num 1)] }

/-- Core of `API.get_hashprice` (lines 142-171): validates the currency
(`currency.lower() not in ['btc', 'usd']` raises), substitutes
`f"{currency.lower()}Hashprice"` into the query template, passes the interval
and `first = 10000` as variables.  `.lower()` on an int argument (possible via
`exec`) is an `AttributeError`. -/
def hashpriceBody (inputInterval currency : JVal) : Except Err RequestBody :=
  match currency with
  | .num _ => .error .attributeError
  | .str c =>
    if pyLower c ∉ ["btc", "usd"] then .error .invalidCurrency
    else .ok { query := hashpriceQuery (pyLower c ++ "Hashprice"),
               vars := some [("inputInterval", inputInterval), ("first", .num 10000)] }

/-- `API.get_hashprice` called directly with string arguments. -/
def get_hashprice (inputInterval currency : String) : Except Err RequestBody :=
  hashpriceBody (.str inputInterval) (.str currency)

/-- `API.get_network_hashrate` (lines 173-195): fixed query, interval and
`first = 10000` as variables; no validation. -/
def networkHashrateBody (inputInterval : JVal) : RequestBody :=
  { query := networkHashrateQuery,
    vars := some [("inputInterval", inputInterval), ("first", .num 10000)] }

/-- `API.get_network_hashrate` called directly with a string argument. -/
def get_network_hashrate (inputInterval : String) : RequestBody :=
  networkHashrateBody (.str inputInterval)

/-- The request part of `API.get_network_difficulty` (lines 197-217):
fixed query, interval and fixed slug as variables. -/
def networkDifficultyBody (inputInterval : JVal) : RequestBody :=
  { query := networkDifficultyQuery,
    vars := some [("inputInterval", inputInterval),
                       ("inputSlug", .str "bitcoin-price-and-difficulty")] }

/-- `API.get_ohlc_prices` (lines 223-242): fixed query, interval and fixed
slug as variables. -/
def ohlcPricesBody (inputInterval : JVal) : RequestBody :=
  { query := ohlcPricesQuery,
    vars := some [("inputInterval", inputInterval),
                       ("inputSlug", .str "bitcoin-ohlc")] }

/-- Core of `API.get_asic_price_index` (lines 244-269): validates the currency
exactly like `get_hashprice`, then passes the interval and the slug
`f'asic-price-index-{currency.lower()}'` as variables. -/
def asicPriceIndexBody (inputInterval currency : JVal) : Except Err RequestBody :=
  match currency with
  | .num _ => .error .attributeError
  | .str c =>
    if pyLower c ∉ ["btc", "usd"] then .error .invalidCurrency
    else .ok { query := asicPriceIndexQuery,
               vars := some [("inputInterval", inputInterval),
                                  ("inputSlug", .str ("asic-price-index-" ++ pyLower c))] }

/-- `API.get_asic_price_index` called directly with string arguments. -/
def get_asic_price_index (inputInterval currency : String) : Except Err RequestBody :=
  asicPriceIndexBody (.str inputInterval) (.str currency)

/-! ### `API.request`: HTTP status interpretation (lines 107-114) -/

/-- The HTTP response as `request` sees it: status code, reason phrase, and
the decoded body text (`content = ""` models empty `response.content`). -/
structure HttpResponse where
  statusCode : Nat
  reason : String
  content : String
  deriving DecidableEq, Repr

/-- Lines 107-114 of `API.request`: status 200 returns the body
(`response.json()`, modelled by the decoded body text); any other status
raises, with the body text appended to the message iff the body is non-empty. -/
def request_handleResponse (r : HttpResponse) : Except Err String :=
  if r.statusCode = 200 then .ok r.content
  else if r.content ≠ "" then
    .error (.remote (toString r.statusCode ++ ": " ++ r.reason ++ ": " ++ r.content))
  else
    .error (.remote (toString r.statusCode ++ ": " ++ r.reason))

/-- Runs an operation against a network oracle `net`: a request is issued
(and `net` consulted) only when the operation built a request body; the
second component is the list of requests actually issued. -/
def runOp (net : RequestBody → HttpResponse) :
    Except Err RequestBody → (Except Err String × List RequestBody)
  | .error e => (.error e, [])
  | .ok r => (request_handleResponse (net r), [r])

/-! ### `API.exec`: dynamic dispatch (lines 283-300)

`exec(method, params)` looks `method` up among the instance's callable
attributes (`hasattr`/`callable`); with `params` the CLI's single string:
empty string calls with zero arguments, otherwise it splits on `','` and
coerces each all-digit chunk to `int`.  The embedding dispatches over the six
operation methods; applying a method to the wrong number of arguments is the
Python `TypeError`. -/

/-- The argument coercion of `exec`'s loop (lines 290-297):
`arg.isdigit()` sends the chunk to `int(arg)`, otherwise it stays a string. -/
def coerceArg (s : String) : JVal :=
  if pyIsDigit s then .num (pyToInt s) else .str s

/-- The positional-argument list `exec` builds from its `params` string:
`if not len(params): return func()` gives zero arguments, otherwise the
comma-split, digit-coerced chunks. -/
def execArgs (params : String) : List JVal :=
  if params = "" then [] else (pySplitComma params).map coerceArg

/-- The callable operation methods of class `API` that `exec` can resolve
(the model's dispatch table covers the six `get_*` operations). -/
def apiMethods : List String :=
  ["get_bitcoin_overview", "get_hashprice", "get_network_hashrate",
   "get_network_difficulty", "get_ohlc_prices", "get_asic_price_index"]

/-- `func(*args)` for each operation method: binds the positional arguments
to the method's parameters (wrong arity is a `TypeError`) and returns the
request body the method would send, or the error it raises first. -/
def applyMethod (method : String) (args : List JVal) : Except Err RequestBody :=
  if method = "get_bitcoin_overview" then
    match args with
    | [] => .ok bitcoinOverviewBody
    | _ => .error .typeError
  else if method = "get_hashprice" then
    match args with
    | [i, c] => hashpriceBody i c
    | _ => .error .typeError
  else if method = "get_network_hashrate" then
    match args with
    | [i] => .ok (networkHashrateBody i)
    | _ => .error .typeError
  else if method = "get_network_difficulty" then
    match args with
    | [i] => .ok (networkDifficultyBody i)
    | _ => .error .typeError
  else if method = "get_ohlc_prices" then
    match args with
    | [i] => .ok (ohlcPricesBody i)
    | _ => .error .typeError
  else if method = "get_asic_price_index" then
    match args with
    | [i, c] => asicPriceIndexBody i c
    | _ => .error .typeError
  else .error (.execFailed method)

/-- `API.exec` up to the point where the resolved method hands a request body
to `API.request`: unknown names raise `failed to execute {method}`. -/
def exec (method params : String) : Except Err RequestBody :=
  if method ∈ apiMethods then applyMethod method (execArgs params)
  else .error (.execFailed method)

/-! ### JSON envelopes, `get_network_difficulty` post-processing, resolvers -/

/-- A JSON tree, as returned by `response.json()`. -/
inductive Json where
  | str (s : String)
  | num (n : Int)
  | bool (b : Bool)
  | null
  | arr (elems : List Json)
  | obj (fields : List (String × Json))

/-- First binding of key `k` (Python dicts have unique keys; lookup is the
first match). -/
def lookupField : List (String × Json) → String → Option Json
  | [], _ => none
  | (k', v) :: rest, k => if k' = k then some v else lookupField rest k

/-- Python `j[k]` for a string key: `KeyError` on a dict without the key,
`TypeError` on any non-dict. -/
def jsonGet (j : Json) (k : String) : Except Err Json :=
  match j with
  | .obj fs =>
    match lookupField fs k with
    | some v => .ok v
    | none => .error (.keyError k)
  | _ => .error .typeError

/-- Whether a dict has a binding for `k`. -/
def hasField (fs : List (String × Json)) (k : String) : Bool :=
  fs.any (fun p => p.1 = k)

/-- Removes the binding of `k` from a dict (Python `del d[k]` removes the
key entirely). -/
def delFieldAll (fs : List (String × Json)) (k : String) : List (String × Json) :=
  fs.filter (fun p => decide (p.1 ≠ k))

/-- Python `del element["price"]`-style deletion: `KeyError` if the key is
absent, `TypeError` if `element` is not a dict. -/
def delItem (j : Json) (k : String) : Except Err Json :=
  match j with
  | .obj fs => if hasField fs k then .ok (.obj (delFieldAll fs k)) else .error (.keyError k)
  | _ => .error .typeError

/-- Python `d[k] = v` on a dict where `k` is already bound: replaces the
value in place (first binding). -/
def setField : List (String × Json) → String → Json → List (String × Json)
  | [], k, v => [(k, v)]
  | (k', v') :: rest, k, v =>
    if k' = k then (k, v) :: rest else (k', v') :: setField rest k v

/-- In-place update of an object's key (identity on non-objects; the
post-processing only ever updates a path that `jsonGet` already resolved). -/
def setItem (j : Json) (k : String) (v : Json) : Json :=
  match j with
  | .obj fs => .obj (setField fs k v)
  | _ => j

/-- What `del element["price"]` leaves of a record that has the key. -/
def stripPrice (j : Json) : Json :=
  match j with
  | .obj fs => .obj (delFieldAll fs "price")
  | _ => j

/-- The loop `for element in ...: del element["price"]` (lines 219-220), as a
state-passing fold: on the first element where the deletion raises, the
exception propagates and the remaining elements stay untouched; the first
component is the element list as the in-place mutation leaves it. -/
def stripPriceLoop : List Json → (List Json × Option Err)
  | [] => ([], none)
  | e :: rest =>
    match delItem e "price" with
    | .ok e' =>
      let r := stripPriceLoop rest
      (e' :: r.1, r.2)
    | .error err => (e :: rest, some err)

/-- Python `for x in j` over a JSON value: lists yield their elements, dicts
their keys, strings their characters; other values are not iterable. -/
def pyIter : Json → Except Err (List Json)
  | .arr xs => .ok xs
  | .obj fs => .ok (fs.map (fun p => .str p.1))
  | .str s => .ok (s.toList.map (fun c => .str (String.mk [c])))
  | _ => .error .typeError

/-- Lines 219-221 of `API.get_network_difficulty`: navigate
`result["data"]["getChartBySlug"]["data"]`, delete `"price"` from every
element, return the (mutated) envelope.  The result is the envelope as the
in-place mutation leaves it, paired with the exception raised, if any. -/
def get_network_difficultyPost (result : Json) : Json × Option Err :=
  match jsonGet result "data" with
  | .error e => (result, some e)
  | .ok d1 =>
    match jsonGet d1 "getChartBySlug" with
    | .error e => (result, some e)
    | .ok d2 =>
      match jsonGet d2 "data" with
      | .error e => (result, some e)
      | .ok (.arr elems) =>
        let r := stripPriceLoop elems
        (setItem result "data"
           (setItem d1 "getChartBySlug" (setItem d2 "data" (.arr r.1))), r.2)
      | .ok other =>
        match pyIter other with
        | .error e => (result, some e)
        | .ok items => (result, (stripPriceLoop items).2)

/-! ### Resolvers (`src/resolvers.py`, list mode)

Each resolver extracts its operation's payload from the envelope; a missing
key or non-dict on the way is the propagated Python `KeyError`/`TypeError`. -/

/-- A triple subscript chain `j[k₁][k₂][k₃]`: the first failing subscript's
exception propagates. -/
def jsonGetChain3 (j : Json) (k₁ k₂ k₃ : String) : Except Err Json :=
  match jsonGet j k₁ with
  | .error e => .error e
  | .ok d =>
    match jsonGet d k₂ with
    | .error e => .error e
    | .ok b => jsonGet b k₃

/-- `RESOLVERS.resolve_get_bitcoin_overview`: `json['data']['bitcoinOverviews']['nodes']`. -/
def resolve_get_bitcoin_overview (j : Json) : Except Err Json :=
  jsonGetChain3 j "data" "bitcoinOverviews" "nodes"

/-- `RESOLVERS.resolve_get_hashprice`: `json['data']['getHashprice']['nodes']`. -/
def resolve_get_hashprice (j : Json) : Except Err Json :=
  jsonGetChain3 j "data" "getHashprice" "nodes"

/-- `RESOLVERS.resolve_get_network_hashrate`: `json['data']['getNetworkHashrate']['nodes']`. -/
def resolve_get_network_hashrate (j : Json) : Except Err Json :=
  jsonGetChain3 j "data" "getNetworkHashrate" "nodes"

/-- `RESOLVERS.resolve_get_network_difficulty`: `json['data']['getChartBySlug']['data']`. -/
def resolve_get_network_difficulty (j : Json) : Except Err Json :=
  jsonGetChain3 j "data" "getChartBySlug" "data"

/-- Whether the envelope has the given key path (each step a dict with the
key present). -/
def hasPath : Json → List String → Bool
  | _, [] => true
  | j, k :: ks =>
    match jsonGet j k with
    | .ok v => hasPath v ks
    | .error _ => false

/-! ### Concrete sample data for witnesses -/

/-- A difficulty-chart record carrying a `price` field. -/
def sampleRecord1 : Json :=
  .obj [("timestamp", .num 1), ("price", .num 5), ("difficulty", .num 9)]

/-- Another difficulty-chart record carrying a `price` field. -/
def sampleRecord2 : Json :=
  .obj [("timestamp", .num 2), ("price", .num 6)]

/-- A record lacking the `price` field. -/
def sampleRecordNoPrice : Json :=
  .obj [("timestamp", .num 2), ("difficulty", .num 7)]

/-- A well-shaped `get_network_difficulty` response envelope around the given
payload records. -/
def mkDiffEnvelope (elems : List Json) : Json :=
  .obj [("data", .obj [("getChartBySlug", .obj [("data", .arr elems)])])]

/-- The `getChartBySlug` level of `mkDiffEnvelope elems`. -/
def mkDiffLevel1 (elems : List Json) : Json :=
  .obj [("getChartBySlug", .obj [("data", .arr elems)])]

/-- The innermost dict of `mkDiffEnvelope elems`. -/
def mkDiffLevel2 (elems : List Json) : Json :=
  .obj [("data", .arr elems)]

/-! ### Helper lemmas -/

theorem pySplitCommaAux_no_comma (l : List Char) (acc : List Char) (h : ',' ∉ l) :
    pySplitCommaAux l acc = [String.mk (acc.reverse ++ l)] := by
  induction l generalizing acc with
  | nil => simp [pySplitCommaAux]
  | cons c cs ih =>
    have hc : ¬(c = ',') := by
      intro he
      exact h (by simp [he])
    have hcs : ',' ∉ cs := fun hm => h (List.mem_cons_of_mem _ hm)
    simp only [pySplitCommaAux, if_neg hc, ih _ hcs]
    simp

/-- Splitting a comma-free string on commas returns the string whole. -/
theorem pySplitComma_no_comma (s : String) (h : ',' ∉ s.toList) :
    pySplitComma s = [s] := by
  unfold pySplitComma
  rw [pySplitCommaAux_no_comma _ _ h]
  simp only [List.reverse_nil, List.nil_append]
  cases s
  rfl

/-- Looking a key up after setting it finds the new value, provided the key
was already bound (the in-place-mutation situation). -/
theorem lookupField_setField (fs : List (String × Json)) (k : String)
    (v₀ v : Json) (h : lookupField fs k = some v₀) :
    lookupField (setField fs k v) k = some v := by
  induction fs with
  | nil => simp [lookupField] at h
  | cons p rest ih =>
    by_cases hk : p.1 = k
    · simp [setField, lookupField, hk]
    · simp only [lookupField, setField, if_neg hk] at h ⊢
      exact ih h

/-- `jsonGet` after `setItem` on a key that `jsonGet` already resolved. -/
theorem jsonGet_setItem (j : Json) (k : String) (v₀ v : Json)
    (h : jsonGet j k = .ok v₀) :
    jsonGet (setItem j k v) k = .ok v := by
  cases j with
  | obj fs =>
    simp only [jsonGet, setItem]
    cases hl : lookupField fs k with
    | none => simp [jsonGet, hl] at h
    | some w => rw [lookupField_setField fs k w v hl]
  | str s => simp [jsonGet] at h
  | num n => simp [jsonGet] at h
  | bool b => simp [jsonGet] at h
  | null => simp [jsonGet] at h
  | arr es => simp [jsonGet] at h

/-- After deleting a key, the key is gone. -/
theorem hasField_delFieldAll (fs : List (String × Json)) (k : String) :
    hasField (delFieldAll fs k) k = false := by
  simp [hasField, delFieldAll, List.any_eq_true, List.mem_filter]

/-- Deleting `"price"` from a record that has it succeeds and yields the
stripped record. -/
theorem delItem_price_ok (e : Json) (fs : List (String × Json))
    (he : e = .obj fs) (hf : hasField fs "price" = true) :
    delItem e "price" = .ok (stripPrice e) := by
  subst he
  simp [delItem, stripPrice, hf]

/-- Deleting `"price"` from a record that lacks it (or is not a dict) raises. -/
theorem delItem_price_error (e : Json)
    (h : ∀ fs, e = .obj fs → hasField fs "price" = false) :
    ∃ err, delItem e "price" = .error err := by
  cases e with
  | obj fs =>
    have hf := h fs rfl
    exact ⟨.keyError "price", by simp [delItem, hf]⟩
  | str s => exact ⟨.typeError, rfl⟩
  | num n => exact ⟨.typeError, rfl⟩
  | bool b => exact ⟨.typeError, rfl⟩
  | null => exact ⟨.typeError, rfl⟩
  | arr es => exact ⟨.typeError, rfl⟩

/-- The deletion loop over records that all have `"price"` strips each one
and raises nothing. -/
theorem stripPriceLoop_all_ok (elems : List Json)
    (h : ∀ e ∈ elems, ∃ fs, e = .obj fs ∧ hasField fs "price" = true) :
    stripPriceLoop elems = (elems.map stripPrice, none) := by
  induction elems with
  | nil => rfl
  | cons e rest ih =>
    obtain ⟨fs, he, hf⟩ := h e (List.mem_cons_self e rest)
    have hrest := ih (fun x hx => h x (List.mem_cons_of_mem _ hx))
    simp [stripPriceLoop, delItem_price_ok e fs he hf, hrest]

/-- The deletion loop stops at the first record lacking `"price"`: records
before it are stripped, it and the records after it are untouched, and the
exception propagates. -/
theorem stripPriceLoop_first_bad (pre : List Json) (bad : Json) (post : List Json)
    (hpre : ∀ e ∈ pre, ∃ fs, e = .obj fs ∧ hasField fs "price" = true)
    (hbad : ∀ fs, bad = .obj fs → hasField fs "price" = false) :
    ∃ err, stripPriceLoop (pre ++ bad :: post) =
      (pre.map stripPrice ++ bad :: post, some err) := by
  obtain ⟨err, herr⟩ := delItem_price_error bad hbad
  refine ⟨err, ?_⟩
  induction pre with
  | nil => simp [stripPriceLoop, herr]
  | cons e rest ih =>
    obtain ⟨fs, he, hf⟩ := hpre e (List.mem_cons_self e rest)
    have hrest : stripPriceLoop (rest.append (bad :: post)) =
        (List.map stripPrice rest ++ bad :: post, some err) :=
      ih (fun x hx => hpre x (List.mem_cons_of_mem _ hx))
    simp only [List.cons_append, stripPriceLoop, delItem_price_ok e fs he hf, hrest,
      List.map_cons]

/-- One unfolding step of `hasPath`. -/
theorem hasPath_cons (j : Json) (k : String) (ks : List String) :
    hasPath j (k :: ks) =
      match jsonGet j k with
      | .ok v => hasPath v ks
      | .error _ => false := rfl

/-- A three-key extraction chain raises whenever the path is absent. -/
theorem jsonGetChain3_error (j : Json) (k₁ k₂ k₃ : String)
    (h : hasPath j [k₁, k₂, k₃] = false) :
    ∃ e, jsonGetChain3 j k₁ k₂ k₃ = .error e := by
  cases h1 : jsonGet j k₁ with
  | error e => exact ⟨e, by simp [jsonGetChain3, h1]⟩
  | ok d =>
    cases h2 : jsonGet d k₂ with
    | error e => exact ⟨e, by simp [jsonGetChain3, h1, h2]⟩
    | ok b =>
      cases h3 : jsonGet b k₃ with
      | error e => exact ⟨e, by simp [jsonGetChain3, h1, h2, h3]⟩
      | ok v =>
        exfalso
        simp only [hasPath_cons, h1, h2, h3, hasPath] at h
        exact absurd h (by simp)

/-! ### Claim theorems -/

/-- C1: for every currency string whose lowercase form is neither `btc` nor
`usd`, both `get_hashprice` and `get_asic_price_index` fail with the
invalid-currency error before issuing any network call: whatever the network
oracle, the run produces that error and the list of issued requests is empty. -/
theorem claim_C1_invalid_currency_no_request
    (net : RequestBody → HttpResponse) (inputInterval currency : String)
    (h : pyLower currency ∉ ["btc", "usd"]) :
    runOp net (get_hashprice inputInterval currency) = (.error .invalidCurrency, []) ∧
    runOp net (get_asic_price_index inputInterval currency) = (.error .invalidCurrency, []) := by
  constructor <;>
    simp [runOp, get_hashprice, get_asic_price_index, hashpriceBody, asicPriceIndexBody, h]

set_option maxRecDepth 40000 in
/-- Witness for C1 at the concrete currency `"EUR"`. -/
theorem claim_C1_witness :
    runOp (fun _ => ⟨200, "OK", ""⟩) (get_hashprice "_1_DAY" "EUR") =
      (.error .invalidCurrency, []) ∧
    runOp (fun _ => ⟨200, "OK", ""⟩) (get_asic_price_index "_1_DAY" "EUR") =
      (.error .invalidCurrency, []) :=
  claim_C1_invalid_currency_no_request _ "_1_DAY" "EUR" (by decide)

/-- C2: the outgoing request of `get_hashprice` (query text, hence the
substituted field name, and variables) and of `get_asic_price_index`
(parameter mapping, hence the slug) is invariant under case changes of the
currency argument: two currencies with equal lowercase forms give equal
requests, for every interval. -/
theorem claim_C2_currency_case_insensitive
    (inputInterval c₁ c₂ : String) (h : pyLower c₁ = pyLower c₂) :
    get_hashprice inputInterval c₁ = get_hashprice inputInterval c₂ ∧
    get_asic_price_index inputInterval c₁ = get_asic_price_index inputInterval c₂ := by
  constructor <;>
    simp only [get_hashprice, get_asic_price_index, hashpriceBody, asicPriceIndexBody, h]

set_option maxRecDepth 40000 in
/-- Witness for C2 at `"USD"` vs `"usd"`. -/
theorem claim_C2_witness :
    get_hashprice "_1_DAY" "USD" = get_hashprice "_1_DAY" "usd" ∧
    get_asic_price_index "_1_DAY" "USD" = get_asic_price_index "_1_DAY" "usd" :=
  claim_C2_currency_case_insensitive "_1_DAY" "USD" "usd" (by decide)

/-- C3: a non-2xx response with a non-empty body fails with a remote error
whose message contains the status code, the reason phrase, and the decoded
body text, in that order (the message is their `": "`-separated
concatenation); with an empty body it fails with a remote error carrying the
status code and reason only. -/
theorem claim_C3_non_2xx_remote_error (r : HttpResponse)
    (h : r.statusCode < 200 ∨ 300 ≤ r.statusCode) :
    (r.content ≠ "" →
      ∃ m, request_handleResponse r = .error (.remote m) ∧
        m = toString r.statusCode ++ ": " ++ r.reason ++ ": " ++ r.content ∧
        ∃ a b c, m = toString r.statusCode ++ a ++ r.reason ++ b ++ r.content ++ c) ∧
    (r.content = "" →
      request_handleResponse r = .error (.remote (toString r.statusCode ++ ": " ++ r.reason))) := by
  have h200 : ¬(r.statusCode = 200) := by omega
  constructor
  · intro hne
    refine ⟨_, ?_, rfl, ": ", ": ", "", by simp⟩
    rw [request_handleResponse, if_neg h200, if_pos hne]
  · intro he
    rw [request_handleResponse, if_neg h200, if_neg (by simp [he])]

set_option maxRecDepth 40000 in
/-- Witness for C3: a 404 with body and a 500 with empty body. -/
theorem claim_C3_witness :
    (∃ m, request_handleResponse ⟨404, "Not Found", "oops"⟩ = .error (.remote m) ∧
      m = toString 404 ++ ": " ++ "Not Found" ++ ": " ++ "oops" ∧
      ∃ a b c, m = toString 404 ++ a ++ "Not Found" ++ b ++ "oops" ++ c) ∧
    request_handleResponse ⟨500, "Internal Server Error", ""⟩ =
      .error (.remote (toString 500 ++ ": " ++ "Internal Server Error")) :=
  ⟨(claim_C3_non_2xx_remote_error ⟨404, "Not Found", "oops"⟩ (by decide)).1 (by decide),
   (claim_C3_non_2xx_remote_error ⟨500, "Internal Server Error", ""⟩ (by decide)).2 rfl⟩

set_option maxRecDepth 40000 in
/-- C4: `exec`'s coercion of the positional-argument string: an empty string
yields zero arguments (so `exec "get_bitcoin_overview" ""` calls the
zero-argument operation and builds its request); an all-digit chunk `"7"` is
passed as the integer `7`; a chunk `"7DAYS"` that is not all digits stays the
string `"7DAYS"`. -/
theorem claim_C4_exec_argument_coercion :
    execArgs "" = [] ∧
    exec "get_bitcoin_overview" "" = .ok bitcoinOverviewBody ∧
    execArgs "7" = [.num 7] ∧
    execArgs "7DAYS" = [.str "7DAYS"] :=
  ⟨rfl, by decide, by decide, by decide⟩

set_option maxRecDepth 40000 in
/-- C5 counterexample: at the interval string `"7"` the dynamic-dispatch
entry point coerces the argument to the integer `7`, so the variables mapping
it sends (`inputInterval ↦ 7`) differs from the one the direct call sends
(`inputInterval ↦ "7"`): the outgoing request bodies are not the same. -/
theorem claim_C5_counterexample :
    exec "get_network_hashrate" "7" ≠ .ok (get_network_hashrate "7") ∧
    exec "get_network_hashrate" "7" = .ok (networkHashrateBody (.num 7)) ∧
    get_network_hashrate "7" = networkHashrateBody (.str "7") :=
  ⟨by decide, by decide, rfl⟩

/-- C5 (amended): for every interval string that is non-empty, contains no
comma, and does not consist only of digits — in particular every documented
interval value — dispatching `network_hashrate` through `exec` with that
interval as the single argument builds exactly the request body of the direct
`get_network_hashrate` call. -/
theorem claim_C5_exec_matches_direct (s : String)
    (h1 : s ≠ "") (h2 : pyIsDigit s = false) (h3 : ',' ∉ s.toList) :
    exec "get_network_hashrate" s = .ok (get_network_hashrate s) := by
  rw [exec, if_pos (by decide : "get_network_hashrate" ∈ apiMethods)]
  rw [execArgs, if_neg h1, pySplitComma_no_comma s h3]
  simp only [List.map_cons, List.map_nil, coerceArg, h2, Bool.false_eq_true, if_false]
  rw [applyMethod]
  simp only [String.reduceEq, if_false, if_true, reduceIte]
  rfl

set_option maxRecDepth 40000 in
/-- Witness for C5 (amended) at the documented interval `"_7_DAYS"`. -/
theorem claim_C5_witness :
    exec "get_network_hashrate" "_7_DAYS" = .ok (get_network_hashrate "_7_DAYS") :=
  claim_C5_exec_matches_direct "_7_DAYS" (by decide) (by decide) (by decide)

/-- C6: for a currency whose lowercase form is `btc` or `usd`,
`get_hashprice` builds its query text by substituting the field name
`{currency.lower()}Hashprice` into the template hole (prefix ++ field ++
suffix, a text that does not depend on the interval), and passes the interval
and the page-size default `first = 10000` as GraphQL variables. -/
theorem claim_C6_hashprice_field_substitution (inputInterval currency : String)
    (h : pyLower currency = "btc" ∨ pyLower currency = "usd") :
    get_hashprice inputInterval currency =
      .ok { query := hashpriceQueryPre ++ (pyLower currency ++ "Hashprice") ++ hashpriceQuerySuf,
            vars := some [("inputInterval", .str inputInterval), ("first", .num 10000)] } := by
  have hmem : pyLower currency ∈ ["btc", "usd"] := by
    rcases h with h | h <;> simp [h]
  simp [get_hashprice, hashpriceBody, hashpriceQuery, hmem]

set_option maxRecDepth 40000 in
/-- Witness for C6 at `currency = "USD"`: the requested field is
`usdHashprice`. -/
theorem claim_C6_witness :
    get_hashprice "_7_DAYS" "USD" =
      .ok { query := hashpriceQueryPre ++ ("usd" ++ "Hashprice") ++ hashpriceQuerySuf,
            vars := some [("inputInterval", .str "_7_DAYS"), ("first", .num 10000)] } := by
  have := claim_C6_hashprice_field_substitution "_7_DAYS" "USD" (by decide)
  rwa [show pyLower "USD" = "usd" from by decide] at this

/-- C9: `request` treats only HTTP status exactly 200 as success: every
response with a different status code — 201 and 204 included — raises a
remote error and never returns the decoded body. -/
theorem claim_C9_only_200_is_success (r : HttpResponse) (h : r.statusCode ≠ 200) :
    ∃ m, request_handleResponse r = .error (.remote m) := by
  rw [request_handleResponse, if_neg h]
  by_cases hc : r.content = ""
  · exact ⟨_, by rw [if_neg (by simp [hc])]⟩
  · exact ⟨_, by rw [if_pos hc]⟩

/-- Witness for C9 at the 2xx statuses 201 and 204. -/
theorem claim_C9_witness :
    (∃ m, request_handleResponse ⟨201, "Created", "body"⟩ = .error (.remote m)) ∧
    (∃ m, request_handleResponse ⟨204, "No Content", ""⟩ = .error (.remote m)) :=
  ⟨claim_C9_only_200_is_success ⟨201, "Created", "body"⟩ (by decide),
   claim_C9_only_200_is_success ⟨204, "No Content", ""⟩ (by decide)⟩

/-- C7: on a successful `network_difficulty` response whose payload records
all carry a `price` field, the post-processing deletes `price` from every
record (leaving the other fields of each record and the rest of the envelope
unchanged), raises nothing, and the resolved output — the payload the
difficulty resolver extracts from the returned envelope — contains no
`price` key on any record. -/
theorem claim_C7_price_removed_from_every_record
    (result d1 d2 : Json) (elems : List Json)
    (h1 : jsonGet result "data" = .ok d1)
    (h2 : jsonGet d1 "getChartBySlug" = .ok d2)
    (h3 : jsonGet d2 "data" = .ok (.arr elems))
    (hall : ∀ e ∈ elems, ∃ fs, e = .obj fs ∧ hasField fs "price" = true) :
    get_network_difficultyPost result =
      (setItem result "data" (setItem d1 "getChartBySlug"
        (setItem d2 "data" (.arr (elems.map stripPrice)))), none) ∧
    resolve_get_network_difficulty
      (setItem result "data" (setItem d1 "getChartBySlug"
        (setItem d2 "data" (.arr (elems.map stripPrice))))) =
      .ok (.arr (elems.map stripPrice)) ∧
    ∀ e ∈ elems.map stripPrice, ∀ fs, e = .obj fs → hasField fs "price" = false := by
  have hloop := stripPriceLoop_all_ok elems hall
  refine ⟨?_, ?_, ?_⟩
  · simp only [get_network_difficultyPost, h1, h2, h3, hloop]
  · simp only [resolve_get_network_difficulty, jsonGetChain3,
      jsonGet_setItem result "data" d1 _ h1,
      jsonGet_setItem d1 "getChartBySlug" d2 _ h2,
      jsonGet_setItem d2 "data" (.arr elems) _ h3]
  · intro e he fs hfs
    rw [List.mem_map] at he
    obtain ⟨e₀, he₀, rfl⟩ := he
    obtain ⟨fs₀, rfl, _⟩ := hall e₀ he₀
    have hinj : Json.obj (delFieldAll fs₀ "price") = Json.obj fs := hfs
    injection hinj with hfs'
    rw [← hfs']
    exact hasField_delFieldAll fs₀ "price"

/-- Witness for C7 on a two-record envelope whose records both carry `price`. -/
theorem claim_C7_witness :
    get_network_difficultyPost (mkDiffEnvelope [sampleRecord1, sampleRecord2]) =
      (setItem (mkDiffEnvelope [sampleRecord1, sampleRecord2]) "data"
        (setItem (mkDiffLevel1 [sampleRecord1, sampleRecord2]) "getChartBySlug"
          (setItem (mkDiffLevel2 [sampleRecord1, sampleRecord2]) "data"
            (.arr ([sampleRecord1, sampleRecord2].map stripPrice)))), none) ∧
    resolve_get_network_difficulty
      (setItem (mkDiffEnvelope [sampleRecord1, sampleRecord2]) "data"
        (setItem (mkDiffLevel1 [sampleRecord1, sampleRecord2]) "getChartBySlug"
          (setItem (mkDiffLevel2 [sampleRecord1, sampleRecord2]) "data"
            (.arr ([sampleRecord1, sampleRecord2].map stripPrice))))) =
      .ok (.arr ([sampleRecord1, sampleRecord2].map stripPrice)) ∧
    ∀ e ∈ [sampleRecord1, sampleRecord2].map stripPrice,
      ∀ fs, e = .obj fs → hasField fs "price" = false :=
  claim_C7_price_removed_from_every_record
    (mkDiffEnvelope [sampleRecord1, sampleRecord2])
    (mkDiffLevel1 [sampleRecord1, sampleRecord2])
    (mkDiffLevel2 [sampleRecord1, sampleRecord2])
    [sampleRecord1, sampleRecord2] rfl rfl rfl
    (by
      intro e he
      rcases List.mem_cons.1 he with rfl | he'
      · exact ⟨_, rfl, rfl⟩
      · rcases List.mem_singleton.1 he' with rfl
        exact ⟨_, rfl, rfl⟩)

/-- C8: a response envelope lacking a resolver's expected extraction path
makes that resolver fail (with the propagated lookup error) rather than
return a value: shown for the bitcoin-overview and hashprice resolvers. -/
theorem claim_C8_missing_path_fails
    (j : Json) :
    (hasPath j ["data", "bitcoinOverviews", "nodes"] = false →
      ∃ e, resolve_get_bitcoin_overview j = .error e) ∧
    (hasPath j ["data", "getHashprice", "nodes"] = false →
      ∃ e, resolve_get_hashprice j = .error e) :=
  ⟨fun h => jsonGetChain3_error j "data" "bitcoinOverviews" "nodes" h,
   fun h => jsonGetChain3_error j "data" "getHashprice" "nodes" h⟩

/-- Witness for C8: a 200-status-shaped body missing the `data` nesting. -/
theorem claim_C8_witness :
    (∃ e, resolve_get_bitcoin_overview (.obj [("data", .null)]) = .error e) ∧
    (∃ e, resolve_get_hashprice (.obj [("errors", .arr [])]) = .error e) :=
  ⟨(claim_C8_missing_path_fails (.obj [("data", .null)])).1 rfl,
   (claim_C8_missing_path_fails (.obj [("errors", .arr [])])).2 rfl⟩

/-- C10: when some payload record lacks the `price` key, the
`get_network_difficulty` post-processing raises (the unguarded `del` fails on
the first such record) instead of returning, and at that moment the records
preceding the offending one have already had `price` removed in the shared
envelope, while the offending record and the ones after it are untouched. -/
theorem claim_C10_missing_price_raises_after_partial_mutation
    (result d1 d2 : Json) (pre post : List Json) (bad : Json)
    (h1 : jsonGet result "data" = .ok d1)
    (h2 : jsonGet d1 "getChartBySlug" = .ok d2)
    (h3 : jsonGet d2 "data" = .ok (.arr (pre ++ bad :: post)))
    (hpre : ∀ e ∈ pre, ∃ fs, e = .obj fs ∧ hasField fs "price" = true)
    (hbad : ∀ fs, bad = .obj fs → hasField fs "price" = false) :
    ∃ err,
      get_network_difficultyPost result =
        (setItem result "data" (setItem d1 "getChartBySlug"
          (setItem d2 "data" (.arr (pre.map stripPrice ++ bad :: post)))), some err) ∧
      ∀ e ∈ pre.map stripPrice, ∀ fs, e = .obj fs → hasField fs "price" = false := by
  obtain ⟨err, hloop⟩ := stripPriceLoop_first_bad pre bad post hpre hbad
  refine ⟨err, ?_, ?_⟩
  · simp only [get_network_difficultyPost, h1, h2, h3, hloop]
  · intro e he fs hfs
    rw [List.mem_map] at he
    obtain ⟨e₀, he₀, rfl⟩ := he
    obtain ⟨fs₀, rfl, _⟩ := hpre e₀ he₀
    have hinj : Json.obj (delFieldAll fs₀ "price") = Json.obj fs := hfs
    injection hinj with hfs'
    rw [← hfs']
    exact hasField_delFieldAll fs₀ "price"

/-- Witness for C10: a two-record payload whose second record lacks `price`;
the first record is stripped, the second stays, an error is raised. -/
theorem claim_C10_witness :
    ∃ err,
      get_network_difficultyPost (mkDiffEnvelope [sampleRecord1, sampleRecordNoPrice]) =
        (setItem (mkDiffEnvelope [sampleRecord1, sampleRecordNoPrice]) "data"
          (setItem (mkDiffLevel1 [sampleRecord1, sampleRecordNoPrice]) "getChartBySlug"
            (setItem (mkDiffLevel2 [sampleRecord1, sampleRecordNoPrice]) "data"
              (.arr ([sampleRecord1].map stripPrice ++ sampleRecordNoPrice :: [])))),
         some err) ∧
      ∀ e ∈ [sampleRecord1].map stripPrice, ∀ fs, e = .obj fs → hasField fs "price" = false :=
  claim_C10_missing_price_raises_after_partial_mutation
    (mkDiffEnvelope [sampleRecord1, sampleRecordNoPrice])
    (mkDiffLevel1 [sampleRecord1, sampleRecordNoPrice])
    (mkDiffLevel2 [sampleRecord1, sampleRecordNoPrice])
    [sampleRecord1] [] sampleRecordNoPrice rfl rfl rfl
    (by
      intro e he
      rcases List.mem_singleton.1 he with rfl
      exact ⟨_, rfl, rfl⟩)
    (by
      intro fs hfs
      have hinj : Json.obj [("timestamp", .num 2), ("difficulty", .num 7)] = Json.obj fs := hfs
      injection hinj with h
      rw [← h]
      rfl)

end HRI
